import Mathlib

/-!
The program occ: the view state machine of `main.go`

A shallow embedding of `src/main.go`: the key-binding table `keys`, the
`model` record, the transition function `Update` with its two mode handlers
`updateMainView` and `updatePromptView`, and the render function `View`.

Conventions of the embedding.

* A `tea.KeyMsg` is represented by the string its `String()` method returns;
  both `key.Matches` and the comparison in `updatePromptView` only ever look
  at that string.
* A `tea.Cmd` is `Option Cmd`: `none` is Go's `nil`, `some Cmd.Quit` is
  `tea.Quit`.
* Go's `int` is `Int`; no arithmetic in the file can overflow (the only
  arithmetic is `8 - a - b` on newline counts).
* Library routines whose code is not part of the repository (`help.View`,
  the lipgloss renderers, `term.GetSize`) are fields of the records `Ext`
  and `Env`, passed explicitly. What the rendering library detects from the
  terminal (colour profile, background) is the record `Renderer`, a part of
  `Env` that every rendering routine receives.
* `strings.Repeat` panics on a negative count; it returns `Option String`,
  and so does `View`.
-/

namespace Occ

/-! ## Library types used by the source -/

/-- The `key.Binding` record of the bubbles library: the key strings that
trigger it, the help pair (key label, description) and the disabled flag. -/
structure Binding where
  keys : List String
  helpKey : String
  helpDesc : String
  disabled : Bool
deriving DecidableEq, Repr

/-- The call `key.NewBinding(key.WithKeys ks..., key.WithHelp(k, d))`. -/
def NewBinding (ks : List String) (k d : String) : Binding :=
  { keys := ks, helpKey := k, helpDesc := d, disabled := false }

/-- The method `Binding.Enabled`: not disabled and a key list was set. -/
def Binding.Enabled (b : Binding) : Bool :=
  !b.disabled && !b.keys.isEmpty

/-- The function `key.Matches(k, b...)`: some binding is enabled and lists
the string of the pressed key. -/
def Matches (k : String) (bs : List Binding) : Bool :=
  bs.any fun b => b.keys.any fun v => k == v && b.Enabled

/-- The fields of `help.Model` (bubbles) other than its styles: the source
reads and writes `Width` and `ShowAll`. -/
structure helpModel where
  Width : Int
  ShowAll : Bool
  ShortSeparator : String
  FullSeparator : String
  Ellipsis : String
deriving DecidableEq, Repr

/-- The constructor `help.New()`. -/
def helpNew : helpModel :=
  { Width := 0, ShowAll := false, ShortSeparator := " • ",
    FullSeparator := "    ", Ellipsis := "…" }

/-- The settings of a `lipgloss.Style` that the source uses. -/
structure Style where
  foreground : Option String
  paddingLeft : Nat
  padding : Nat
  roundedBorder : Bool
  borderForeground : Option String
  alignCenter : Bool
deriving DecidableEq, Repr

/-- The call `lipgloss.NewStyle()`. -/
def NewStyle : Style :=
  { foreground := none, paddingLeft := 0, padding := 0, roundedBorder := false,
    borderForeground := none, alignCenter := false }

/-- Messages delivered to `Update`: `tea.WindowSizeMsg`, `tea.KeyMsg` (by its
string), and any other message type (identified by a tag). -/
inductive Msg where
  | WindowSizeMsg (Width Height : Int)
  | KeyMsg (s : String)
  | other (tag : Nat)
deriving DecidableEq, Repr

/-- The only command the program ever returns is `tea.Quit`. -/
inductive Cmd where
  | Quit
deriving DecidableEq, Repr

/-! ## `main.go` -/

/-- The adaptive colour `subtle` as its light and dark variants. -/
def subtle : String × String := ("#D9DCCF", "#383838")

/-- The style `choiceStyle`. -/
def choiceStyle : Style := { NewStyle with paddingLeft := 1, foreground := some "241" }

/-- The style `quitViewStyle`. -/
def quitViewStyle : Style :=
  { NewStyle with padding := 1, roundedBorder := true, borderForeground := some "170" }

/-- The type `keyMap`: one binding per logical action. -/
structure keyMap where
  Help : Binding
  Quit : Binding
deriving DecidableEq, Repr

/-- The method `keyMap.ShortHelp`. -/
def keyMap.ShortHelp (k : keyMap) : List Binding := [k.Help, k.Quit]

/-- The method `keyMap.FullHelp`: one column (the source comments the first
column out and calls the remaining one the second). -/
def keyMap.FullHelp (k : keyMap) : List (List Binding) := [[k.Help, k.Quit]]

/-- The package variable `keys`. -/
def keys : keyMap :=
  { Help := NewBinding ["?"] "?" "toggle help",
    Quit := NewBinding ["q", "esc", "ctrl+c"] "q" "quit" }

/-- The type `model`. It has a width (inside `help`) and no height field. -/
structure model where
  keys : keyMap
  help : helpModel
  inputStyle : Style
  lastKey : String
  quitting : Bool
deriving DecidableEq, Repr

/-- The function `newModel`; fields not listed take Go's zero value. -/
def newModel : model :=
  { keys := keys, help := helpNew,
    inputStyle := { NewStyle with foreground := some "#FF75B7" },
    lastKey := "", quitting := false }

/-- The method `model.Init`. -/
def Init (_m : model) : Option Cmd := none

/-- The method `model.updateMainView`. -/
def updateMainView (m : model) (message : Msg) : model × Option Cmd :=
  match message with
  | Msg.WindowSizeMsg Width _ => ({ m with help := { m.help with Width := Width } }, none)
  | Msg.KeyMsg msg =>
    if Matches msg [m.keys.Help] then
      ({ m with help := { m.help with ShowAll := !m.help.ShowAll } }, none)
    else if Matches msg [m.keys.Quit] then
      ({ m with quitting := true }, none)
    else
      (m, none)
  | Msg.other _ => (m, none)

/-- The method `model.updatePromptView`. -/
def updatePromptView (m : model) (msg : Msg) : model × Option Cmd :=
  match msg with
  | Msg.KeyMsg s =>
    if s = "y" then (m, some Cmd.Quit)
    else ({ m with quitting := false }, none)
  | _ => (m, none)

/-- The method `model.Update`. -/
def Update (m : model) (msg : Msg) : model × Option Cmd :=
  if m.quitting then updatePromptView m msg else updateMainView m msg

/-! ## Rendering -/

/-- What the default lipgloss renderer detects from the terminal and uses
when it renders a style: the colour profile and the background. -/
structure Renderer where
  colorProfile : Nat
  hasDarkBackground : Bool
deriving DecidableEq, Repr

/-- The environment `View` runs in: the size
`term.GetSize(int(os.Stdout.Fd()))` reports when it is called (the error
result is dropped by the source) and the state of the renderer. Neither is
part of the model. -/
structure Env where
  physicalWidth : Int
  physicalHeight : Int
  renderer : Renderer
deriving DecidableEq, Repr

/-- The function `term.GetSize` at the standard output of the environment. -/
def GetSize (env : Env) : Int × Int := (env.physicalWidth, env.physicalHeight)

/-- The library routines `View` calls, taken as functions of their arguments
and of the renderer state: `help.Model.View`, `Style.Render`,
`lipgloss.JoinHorizontal` at position `Center`, and `lipgloss.Place` at
positions `Center`, `Center` with the whitespace options (characters and
foreground) of the source. -/
structure Ext where
  helpView : Renderer → helpModel → keyMap → String
  Render : Renderer → Style → String → String
  JoinHorizontal : List String → String
  Place : Renderer → Int → Int → String → String × String → String → String

/-- The function `strings.Count(s, sep)` for a separator of one character:
the number of occurrences of that character. -/
def Count (s : String) (sep : Char) : Nat := s.toList.count sep

/-- The string `s` written `n` times. -/
def repeatN (s : String) : Nat → String
  | 0 => ""
  | n + 1 => s ++ repeatN s n

/-- The function `strings.Repeat(s, count)`: it panics on a negative count
(`none`). -/
def Repeat (s : String) (count : Int) : Option String :=
  if count < 0 then none else some (repeatN s count.toNat)

/-- The padding count `height` computed by `View` in the main view. -/
def height (status helpView : String) : Int :=
  8 - (Count status '\n' : Int) - (Count helpView '\n' : Int)

/-- The method `model.View`; `none` is a panic. -/
def View (X : Ext) (env : Env) (m : model) : Option String :=
  if m.quitting then
    let (physicalWidth, physicalHeight) := GetSize env
    let text := X.Render env.renderer { NewStyle with alignCenter := true }
      (X.JoinHorizontal
        ["Are you sure you want to exit?", X.Render env.renderer choiceStyle "[yN]"])
    let dialog := X.Place env.renderer physicalWidth physicalHeight
      (X.Render env.renderer quitViewStyle text) subtle "猫咪"
    some dialog
  else
    let status := "Waiting..."
    let helpView := X.helpView env.renderer m.help m.keys
    match Repeat "\n" (height status helpView) with
    | none => none
    | some pad => some ("\n" ++ status ++ pad ++ helpView)

/-! ## Event sequences -/

/-- The model after the events of `evs` were applied through `Update`, in
order, starting from `m`. -/
def run (m : model) : List Msg → model
  | [] => m
  | e :: es => run (Update m e).1 es

/-- The model that handles the event at position `n` of `evs` when the
program starts from `newModel`. -/
def stateAt (evs : List Msg) (n : Nat) : model := run newModel (evs.take n)

/-- Whether a message is a key press. -/
def Msg.isKey : Msg → Bool
  | Msg.KeyMsg _ => true
  | _ => false

/-- The model in the quit-confirmation view reached from `newModel`. -/
def confirmModel : model := { newModel with quitting := true }

/-- A terminal of the given size whose renderer has no colours. -/
def termEnv (w h : Int) : Env :=
  { physicalWidth := w, physicalHeight := h,
    renderer := { colorProfile := 0, hasDarkBackground := false } }

/-- A plain-text stand-in for the library routines, for evaluating `View` on
concrete inputs: no styling, joining is concatenation, and placing centres a
one-line text by padding with blank lines above and blanks to the left. The
help view is the function given. -/
def plainExt (helpView : helpModel → keyMap → String) : Ext :=
  { helpView := fun _ => helpView,
    Render := fun _ _ s => s,
    JoinHorizontal := fun parts => String.join parts,
    Place := fun _ w h s _ _ =>
      repeatN "\n" ((h - 1) / 2).toNat ++ repeatN " " ((w - (s.length : Int)) / 2).toNat ++ s }

/-- A help view for the two bindings of `keys`: one line when collapsed, one
line per binding when expanded. -/
def twoLineHelp (h : helpModel) (_k : keyMap) : String :=
  if h.ShowAll then "? toggle help\nq quit" else "? toggle help • q quit"

/-- A help text of ten lines (nine newlines). -/
def tallHelp : String := "1\n2\n3\n4\n5\n6\n7\n8\n9\n10"

/-- The text of the dialog before it is placed. -/
def dialogText (X : Ext) (r : Renderer) : String :=
  X.Render r quitViewStyle
    (X.Render r { NewStyle with alignCenter := true }
      (X.JoinHorizontal ["Are you sure you want to exit?", X.Render r choiceStyle "[yN]"]))

/-- The events of the resize scenario: a resize to 200 by 50 in the main
view, the Quit key, a resize to 10 by 5 while confirming, and the answer
"n". -/
def resizeScenario : List Msg :=
  [Msg.WindowSizeMsg 200 50, Msg.KeyMsg "q", Msg.WindowSizeMsg 10 5, Msg.KeyMsg "n"]

/-! ## Helper lemmas -/

theorem Count_append (a b : String) (c : Char) : Count (a ++ b) c = Count a c + Count b c := by
  simp [Count, String.toList]

theorem Count_repeatN_newline (n : Nat) : Count (repeatN "\n" n) '\n' = n := by
  induction n with
  | zero => rfl
  | succ n ih =>
    rw [repeatN, Count_append, ih]
    have : Count "\n" '\n' = 1 := by decide
    omega

theorem Count_status : Count "Waiting..." '\n' = 0 := by decide

theorem View_main_eq (X : Ext) (env : Env) (m : model) (hq : m.quitting = false)
    (hh : Count (X.helpView env.renderer m.help m.keys) '\n' ≤ 8) :
    View X env m = some ("\n" ++ "Waiting..." ++
      repeatN "\n" (8 - Count (X.helpView env.renderer m.help m.keys) '\n') ++ X.helpView env.renderer m.help m.keys) := by
  have h0 : ¬ height "Waiting..." (X.helpView env.renderer m.help m.keys) < 0 := by
    simp only [height, Count_status]; omega
  have h1 : (height "Waiting..." (X.helpView env.renderer m.help m.keys)).toNat =
      8 - Count (X.helpView env.renderer m.help m.keys) '\n' := by
    simp only [height, Count_status]; omega
  simp [View, hq, Repeat, h0, h1]

theorem matches_help_keys (k : String) : Matches k [keys.Help] = true ↔ k = "?" := by
  simp [Matches, keys, NewBinding, Binding.Enabled]

theorem matches_quit_keys (k : String) :
    Matches k [keys.Quit] = true ↔ (k = "q" ∨ k = "esc" ∨ k = "ctrl+c") := by
  simp [Matches, keys, NewBinding, Binding.Enabled]

theorem mem_quit_keys (k : String) :
    k ∈ keys.Quit.keys ↔ (k = "q" ∨ k = "esc" ∨ k = "ctrl+c") := by
  simp [keys, NewBinding]

theorem quit_key_not_help (k : String) (h : k ∈ keys.Quit.keys) :
    Matches k [keys.Help] = false := by
  rw [mem_quit_keys] at h
  rw [Bool.eq_false_iff, Ne, matches_help_keys]
  rcases h with h | h | h <;> subst h <;> decide

theorem Update_keys (m : model) (msg : Msg) : (Update m msg).1.keys = m.keys := by
  unfold Update updatePromptView updateMainView
  cases msg <;> simp <;> split_ifs <;> simp

/-! ## The transition function -/

/-- C1. `Update` returns the command `tea.Quit` exactly when the model is in
the quit-confirmation view and the message is the key press "y"; the model
returned in that case is the one received; in every other case the command
is nil. -/
theorem Update_quit_iff (m : model) (msg : Msg) :
    ((Update m msg).2 = some Cmd.Quit ↔ (m.quitting = true ∧ msg = Msg.KeyMsg "y")) ∧
    ((m.quitting = true ∧ msg = Msg.KeyMsg "y") → (Update m msg).1 = m) ∧
    (¬ (m.quitting = true ∧ msg = Msg.KeyMsg "y") → (Update m msg).2 = none) := by
  unfold Update updatePromptView updateMainView
  cases hq : m.quitting <;> cases msg <;> simp <;> split_ifs <;> simp_all

/-- C2. In the quit-confirmation view every key press whose string is not
exactly "y" returns to the main view with a nil command and changes no other
field; the rule holds for every binding table, so it does not consult one. -/
theorem Update_confirm_other_key (m : model) (k : String)
    (hq : m.quitting = true) (hk : k ≠ "y") :
    Update m (Msg.KeyMsg k) = ({ m with quitting := false }, none) ∧
    (Update m (Msg.KeyMsg k)).1.quitting = false ∧
    (Update m (Msg.KeyMsg k)).2 = none ∧
    (Update m (Msg.KeyMsg k)).1.help = m.help ∧
    (Update m (Msg.KeyMsg k)).1.keys = m.keys := by
  have h : Update m (Msg.KeyMsg k) = ({ m with quitting := false }, none) := by
    simp [Update, updatePromptView, hq, hk]
  simp [h]

theorem Update_confirm_other_key_witness :
    Update confirmModel (Msg.KeyMsg "Y") = (newModel, none) ∧
    Update confirmModel (Msg.KeyMsg "n") = (newModel, none) ∧
    Update confirmModel (Msg.KeyMsg "yes") = (newModel, none) ∧
    Update confirmModel (Msg.KeyMsg "up") = (newModel, none) ∧
    Update confirmModel (Msg.KeyMsg "?") = (newModel, none) ∧
    Update confirmModel (Msg.KeyMsg "q") = (newModel, none) :=
  ⟨(Update_confirm_other_key confirmModel "Y" rfl (by decide)).1,
   (Update_confirm_other_key confirmModel "n" rfl (by decide)).1,
   (Update_confirm_other_key confirmModel "yes" rfl (by decide)).1,
   (Update_confirm_other_key confirmModel "up" rfl (by decide)).1,
   (Update_confirm_other_key confirmModel "?" rfl (by decide)).1,
   (Update_confirm_other_key confirmModel "q" rfl (by decide)).1⟩

/-- C3. In the main view, with the binding table `keys`, each key of the
Quit binding ("q", "esc", "ctrl+c") switches to the quit-confirmation view
with a nil command; the help flag, the stored width and every other field
are unchanged. -/
theorem Update_main_quit_key (m : model) (k : String)
    (hq : m.quitting = false) (hkeys : m.keys = keys) (hk : k ∈ keys.Quit.keys) :
    keys.Quit.keys = ["q", "esc", "ctrl+c"] ∧
    Update m (Msg.KeyMsg k) = ({ m with quitting := true }, none) ∧
    (Update m (Msg.KeyMsg k)).1.quitting = true ∧
    (Update m (Msg.KeyMsg k)).2 = none ∧
    (Update m (Msg.KeyMsg k)).1.help.ShowAll = m.help.ShowAll ∧
    (Update m (Msg.KeyMsg k)).1.help.Width = m.help.Width := by
  have h1 : Matches k [m.keys.Help] = false := by rw [hkeys]; exact quit_key_not_help k hk
  have h2 : Matches k [m.keys.Quit] = true := by
    rw [hkeys, matches_quit_keys]; exact (mem_quit_keys k).1 hk
  have h : Update m (Msg.KeyMsg k) = ({ m with quitting := true }, none) := by
    simp [Update, updateMainView, hq, h1, h2]
  refine ⟨rfl, h, ?_⟩
  simp [h]

theorem Update_main_quit_key_witness :
    Update newModel (Msg.KeyMsg "q") = (confirmModel, none) ∧
    Update newModel (Msg.KeyMsg "esc") = (confirmModel, none) ∧
    Update newModel (Msg.KeyMsg "ctrl+c") = (confirmModel, none) :=
  ⟨(Update_main_quit_key newModel "q" rfl rfl (by decide)).2.1,
   (Update_main_quit_key newModel "esc" rfl rfl (by decide)).2.1,
   (Update_main_quit_key newModel "ctrl+c" rfl rfl (by decide)).2.1⟩

/-- C4. In the main view, with the binding table `keys`, the Help key "?"
negates the help flag, stays in the main view and returns a nil command;
pressing it twice gives back the original model. -/
theorem Update_main_help_key (m : model) (hq : m.quitting = false) (hkeys : m.keys = keys) :
    (Update m (Msg.KeyMsg "?")).1.help.ShowAll = (!m.help.ShowAll) ∧
    (Update m (Msg.KeyMsg "?")).1.quitting = false ∧
    (Update m (Msg.KeyMsg "?")).2 = none ∧
    (Update m (Msg.KeyMsg "?")).1 =
      { m with help := { m.help with ShowAll := !m.help.ShowAll } } ∧
    Update (Update m (Msg.KeyMsg "?")).1 (Msg.KeyMsg "?") = (m, none) := by
  have h1 : Matches "?" [m.keys.Help] = true := by
    rw [hkeys, matches_help_keys]
  have h : Update m (Msg.KeyMsg "?") =
      ({ m with help := { m.help with ShowAll := !m.help.ShowAll } }, none) := by
    simp [Update, updateMainView, hq, h1]
  rw [h]
  refine ⟨rfl, hq, rfl, rfl, ?_⟩
  simp only [Update, updateMainView, hq, h1, Bool.false_eq_true, if_false, if_true,
    Bool.not_not]
  cases m with
  | mk ks hp st lk q => cases hp; simp_all

theorem Update_main_help_key_witness :
    (Update newModel (Msg.KeyMsg "?")).1.help.ShowAll = true ∧
    Update (Update newModel (Msg.KeyMsg "?")).1 (Msg.KeyMsg "?") = (newModel, none) :=
  ⟨(Update_main_help_key newModel rfl rfl).1, (Update_main_help_key newModel rfl rfl).2.2.2.2⟩

/-- C5 as stated fails: the model has no height field, so the state after a
resize in the main view is the same for the heights 24 and 25, and no
function of the state can return the height of the last resize. -/
theorem resize_main_height_not_stored :
    (Update newModel (Msg.WindowSizeMsg 80 24)).1 =
      (Update newModel (Msg.WindowSizeMsg 80 25)).1 ∧
    ¬ ∃ storedHeight : model → Int, ∀ (s : model) (w h : Int),
        s.quitting = false → 0 ≤ w → 0 ≤ h →
        storedHeight (Update s (Msg.WindowSizeMsg w h)).1 = h := by
  refine ⟨rfl, ?_⟩
  rintro ⟨f, hf⟩
  have h1 := hf newModel 80 24 rfl (by decide) (by decide)
  have h2 := hf newModel 80 25 rfl (by decide) (by decide)
  have h3 : (Update newModel (Msg.WindowSizeMsg 80 24)).1 =
      (Update newModel (Msg.WindowSizeMsg 80 25)).1 := rfl
  rw [h3, h2] at h1
  exact absurd h1 (by decide)

/-- C5, amended. A resize in the main view stores the new width in
`help.Width`, stays in the main view, keeps the help flag and returns a nil
command; the height is not stored: the next state is the same for every
height. -/
theorem Update_main_resize (s : model) (w h : Int) (hq : s.quitting = false) :
    (Update s (Msg.WindowSizeMsg w h)).1.help.Width = w ∧
    (Update s (Msg.WindowSizeMsg w h)).1.quitting = false ∧
    (Update s (Msg.WindowSizeMsg w h)).1.help.ShowAll = s.help.ShowAll ∧
    (Update s (Msg.WindowSizeMsg w h)).2 = none ∧
    Update s (Msg.WindowSizeMsg w h) = ({ s with help := { s.help with Width := w } }, none) ∧
    ∀ h2 : Int, Update s (Msg.WindowSizeMsg w h2) = Update s (Msg.WindowSizeMsg w h) := by
  simp [Update, updateMainView, hq]

theorem Update_main_resize_witness :
    (Update newModel (Msg.WindowSizeMsg 80 24)).1.help.Width = 80 ∧
    (Update newModel (Msg.WindowSizeMsg 80 24)).1.quitting = false :=
  ⟨(Update_main_resize newModel 80 24 rfl).1, (Update_main_resize newModel 80 24 rfl).2.1⟩

/-- A resize received in the quit-confirmation view returns the model as it
is and a nil command. -/
theorem Update_confirm_resize (s : model) (w h : Int) (hq : s.quitting = true) :
    Update s (Msg.WindowSizeMsg w h) = (s, none) := by
  simp [Update, updatePromptView, hq]

/-- C6. Evaluation of the code where it departs from the claim: a resize to
80 by 24 received in the quit-confirmation view returns the model unchanged,
its stored width still 0; in the scenario resize 200 by 50, "q", resize
10 by 5, "n" the program is back in the main view with the stored width 200
of the first resize, while the same two resizes handled in the main view
leave the width 10. -/
theorem resize_while_confirming_dropped :
    Update confirmModel (Msg.WindowSizeMsg 80 24) = (confirmModel, none) ∧
    (Update confirmModel (Msg.WindowSizeMsg 80 24)).1.help.Width = 0 ∧
    (stateAt resizeScenario 2).quitting = true ∧
    (stateAt resizeScenario 3).help.Width = 200 ∧
    (run newModel resizeScenario).quitting = false ∧
    (run newModel resizeScenario).help.Width = 200 ∧
    (run newModel [Msg.WindowSizeMsg 200 50, Msg.WindowSizeMsg 10 5]).help.Width = 10 := by
  decide

/-! ## The render function -/

/-- C7 as stated fails: the frame of the quit-confirmation view is not a
function of the model alone. With the plain-text routines the same model
renders differently in a terminal of 80 columns and in one of 40; with any
routines whose `Place` returns different texts for the widths 80 and 40, the
two frames differ; so the frames are not equal for all routines,
environments and models. -/
theorem View_confirm_depends_on_terminal :
    View (plainExt twoLineHelp) (termEnv 80 24) confirmModel ≠
      View (plainExt twoLineHelp) (termEnv 40 24) confirmModel ∧
    (∀ X : Ext,
      X.Place (termEnv 80 24).renderer 80 24 (dialogText X (termEnv 80 24).renderer) subtle "猫咪" ≠
        X.Place (termEnv 40 24).renderer 40 24 (dialogText X (termEnv 40 24).renderer)
          subtle "猫咪" →
      View X (termEnv 80 24) confirmModel ≠ View X (termEnv 40 24) confirmModel) ∧
    ¬ ∀ (X : Ext) (e1 e2 : Env) (m : model), View X e1 m = View X e2 m := by
  have h1 : View (plainExt twoLineHelp) (termEnv 80 24) confirmModel ≠
      View (plainExt twoLineHelp) (termEnv 40 24) confirmModel := by decide
  refine ⟨h1, ?_, ?_⟩
  · intro X hne h
    apply hne
    simpa [View, confirmModel, GetSize, dialogText, termEnv] using h
  · intro h
    exact h1 (h _ _ _ _)

/-- C7, amended. `View` is a function of the model and of the environment:
the terminal size that `term.GetSize` reports when `View` is called and the
state of the renderer. In the quit-confirmation view the dialog is the
result of `Place` at the reported width and height, and it is the same for
every model in that view, whatever width the model stores. In the main view
no terminal size is read: two environments with the same renderer state
give the same frame. -/
theorem View_inputs (X : Ext) (e1 e2 : Env) (m1 m2 : model) :
    (m1.quitting = true → View X e1 m1 =
      some (X.Place e1.renderer (GetSize e1).1 (GetSize e1).2 (dialogText X e1.renderer)
        subtle "猫咪")) ∧
    (m1.quitting = true → m2.quitting = true → View X e1 m1 = View X e1 m2) ∧
    (m1.quitting = false → e1.renderer = e2.renderer → View X e1 m1 = View X e2 m1) := by
  refine ⟨?_, ?_, ?_⟩
  · intro h; simp [View, h, GetSize, dialogText]
  · intro h1 h2; simp [View, h1, h2]
  · intro h hr; simp [View, h, hr]

/-- C8 as stated fails: for a help text with nine newlines the padding count
is -1 and `View` panics in `strings.Repeat` instead of clamping at zero. -/
theorem View_tall_help_panics :
    Count tallHelp '\n' = 9 ∧
    height "Waiting..." tallHelp = -1 ∧
    View (plainExt fun _ _ => tallHelp) (termEnv 80 24) newModel = none := by
  decide

/-- C8, amended. In the main view, for every help text with at most 8
newlines, `View` does not fail, and the padding it inserts between the
status line and the help text is `8 - newlines(status) - newlines(help)`
newlines, which is `max 0` of that number. -/
theorem View_main_padding (X : Ext) (env : Env) (m : model) (hq : m.quitting = false)
    (hh : Count (X.helpView env.renderer m.help m.keys) '\n' ≤ 8) :
    ∃ pad : String,
      Repeat "\n" (height "Waiting..." (X.helpView env.renderer m.help m.keys)) = some pad ∧
      View X env m = some ("\n" ++ "Waiting..." ++ pad ++ X.helpView env.renderer m.help m.keys) ∧
      pad = repeatN "\n" (8 - Count (X.helpView env.renderer m.help m.keys) '\n') ∧
      (Count pad '\n' : Int) =
        max 0 (8 - (Count "Waiting..." '\n' : Int) - (Count (X.helpView env.renderer m.help m.keys) '\n' : Int)) := by
  refine ⟨repeatN "\n" (8 - Count (X.helpView env.renderer m.help m.keys) '\n'), ?_, ?_, rfl, ?_⟩
  · have h0 : ¬ height "Waiting..." (X.helpView env.renderer m.help m.keys) < 0 := by
      simp only [height, Count_status]; omega
    have h1 : (height "Waiting..." (X.helpView env.renderer m.help m.keys)).toNat =
        8 - Count (X.helpView env.renderer m.help m.keys) '\n' := by
      simp only [height, Count_status]; omega
    simp [Repeat, h0, h1]
  · exact View_main_eq X env m hq hh
  · rw [Count_repeatN_newline, Count_status]
    omega

theorem View_main_padding_witness :
    ∃ pad : String,
      Repeat "\n" (height "Waiting..." (twoLineHelp newModel.help newModel.keys)) = some pad ∧
      View (plainExt twoLineHelp) (termEnv 80 24) newModel =
        some ("\n" ++ "Waiting..." ++ pad ++ twoLineHelp newModel.help newModel.keys) ∧
      pad = repeatN "\n" (8 - Count (twoLineHelp newModel.help newModel.keys) '\n') ∧
      (Count pad '\n' : Int) =
        max 0 (8 - (Count "Waiting..." '\n' : Int) -
          (Count (twoLineHelp newModel.help newModel.keys) '\n' : Int)) :=
  View_main_padding (plainExt twoLineHelp) (termEnv 80 24) newModel rfl (by decide)

/-- C10. In the main view, for every help text with at most 8 newlines, the
frame `View` returns contains exactly 9 newline characters; so two frames of
the main view, such as the one with the help collapsed and the one with the
help expanded, have the same number of lines. -/
theorem View_main_stable_height (X : Ext) (env : Env) (m1 m2 : model)
    (hq1 : m1.quitting = false) (hq2 : m2.quitting = false)
    (hh1 : Count (X.helpView env.renderer m1.help m1.keys) '\n' ≤ 8)
    (hh2 : Count (X.helpView env.renderer m2.help m2.keys) '\n' ≤ 8) :
    ∃ f1 f2 : String, View X env m1 = some f1 ∧ View X env m2 = some f2 ∧
      Count f1 '\n' = 9 ∧ Count f2 '\n' = 9 ∧ Count f1 '\n' = Count f2 '\n' := by
  have key : ∀ m : model, m.quitting = false → Count (X.helpView env.renderer m.help m.keys) '\n' ≤ 8 →
      ∃ f : String, View X env m = some f ∧ Count f '\n' = 9 := by
    intro m hq hh
    refine ⟨_, View_main_eq X env m hq hh, ?_⟩
    rw [Count_append, Count_append, Count_append, Count_repeatN_newline, Count_status]
    have : Count "\n" '\n' = 1 := by decide
    omega
  obtain ⟨f1, hv1, hc1⟩ := key m1 hq1 hh1
  obtain ⟨f2, hv2, hc2⟩ := key m2 hq2 hh2
  exact ⟨f1, f2, hv1, hv2, hc1, hc2, by rw [hc1, hc2]⟩

theorem View_main_stable_height_witness :
    ∃ f1 f2 : String,
      View (plainExt twoLineHelp) (termEnv 80 24) newModel = some f1 ∧
      View (plainExt twoLineHelp) (termEnv 80 24) (Update newModel (Msg.KeyMsg "?")).1 = some f2 ∧
      Count f1 '\n' = 9 ∧ Count f2 '\n' = 9 ∧ Count f1 '\n' = Count f2 '\n' :=
  View_main_stable_height (plainExt twoLineHelp) (termEnv 80 24) newModel
    (Update newModel (Msg.KeyMsg "?")).1 rfl rfl (by decide) (by decide)

/-! ## Event sequences -/

theorem Update_cmd_quit (m : model) (msg : Msg) (h : (Update m msg).2 = some Cmd.Quit) :
    m.quitting = true ∧ msg = Msg.KeyMsg "y" := by
  revert h
  unfold Update updatePromptView updateMainView
  cases hq : m.quitting <;> cases msg <;> simp <;> split_ifs <;> simp_all

theorem Update_main_cmd (m : model) (msg : Msg) (hq : m.quitting = false) :
    (Update m msg).2 = none := by
  unfold Update updateMainView
  cases msg with
  | KeyMsg k => simp only [hq, Bool.false_eq_true, if_false]; split_ifs <;> rfl
  | WindowSizeMsg w h => simp [hq]
  | other t => simp [hq]

theorem Update_main_to_confirm (m : model) (e : Msg) (hq : m.quitting = false)
    (hk : m.keys = keys) (h : (Update m e).1.quitting = true) :
    ∃ k : String, e = Msg.KeyMsg k ∧ k ∈ keys.Quit.keys := by
  cases e with
  | WindowSizeMsg w h0 => simp [Update, updateMainView, hq] at h
  | other t => simp [Update, updateMainView, hq] at h
  | KeyMsg k =>
    refine ⟨k, rfl, ?_⟩
    by_cases h1 : Matches k [m.keys.Help] = true
    · simp [Update, updateMainView, hq, h1] at h
    · by_cases h2 : Matches k [m.keys.Quit] = true
      · rw [hk, matches_quit_keys] at h2
        exact (mem_quit_keys k).2 h2
      · simp [Update, updateMainView, hq, h1, h2] at h

theorem Update_confirm_stays (m : model) (k : String) (hq : m.quitting = true)
    (h : (Update m (Msg.KeyMsg k)).1.quitting = true) : k = "y" := by
  by_contra hk
  simp [Update, updatePromptView, hq, hk] at h

theorem run_append (m : model) (xs ys : List Msg) : run m (xs ++ ys) = run (run m xs) ys := by
  induction xs generalizing m with
  | nil => rfl
  | cons x xs ih => simp [run, ih]

theorem run_keys (m : model) (evs : List Msg) : (run m evs).keys = m.keys := by
  induction evs generalizing m with
  | nil => rfl
  | cons x xs ih => rw [run, ih, Update_keys]

theorem stateAt_zero (evs : List Msg) : stateAt evs 0 = newModel := by
  simp [stateAt, run]

theorem stateAt_succ (evs : List Msg) (n : Nat) (e : Msg) (h : evs[n]? = some e) :
    stateAt evs (n + 1) = (Update (stateAt evs n) e).1 := by
  unfold stateAt
  rw [List.take_succ, h, run_append]
  rfl

theorem stateAt_keys (evs : List Msg) (n : Nat) : (stateAt evs n).keys = keys := by
  unfold stateAt
  rw [run_keys]
  rfl

theorem last_quit_press (evs : List Msg) :
    ∀ n : Nat, n ≤ evs.length → (stateAt evs n).quitting = true →
      ∃ (i : Nat) (k : String), i < n ∧ evs[i]? = some (Msg.KeyMsg k) ∧ k ∈ keys.Quit.keys ∧
        (stateAt evs i).quitting = false ∧
        ∀ j : Nat, i < j → j ≤ n → (stateAt evs j).quitting = true := by
  intro n
  induction n with
  | zero =>
    intro _ h
    rw [stateAt_zero] at h
    exact absurd h (by decide)
  | succ n ih =>
    intro hn h
    have hlt : n < evs.length := hn
    have he : evs[n]? = some evs[n] := List.getElem?_eq_getElem hlt
    cases hq : (stateAt evs n).quitting with
    | false =>
      rw [stateAt_succ evs n _ he] at h
      obtain ⟨k, hk, hmem⟩ := Update_main_to_confirm _ _ hq (stateAt_keys evs n) h
      refine ⟨n, k, Nat.lt_succ_self n, by rw [he, hk], hmem, hq, ?_⟩
      intro j h1 h2
      have : j = n + 1 := by omega
      rw [this, stateAt_succ evs n _ he]
      exact h
    | true =>
      obtain ⟨i, k, hi, hik, hmem, hmain, hall⟩ := ih (by omega) hq
      refine ⟨i, k, by omega, hik, hmem, hmain, ?_⟩
      intro j h1 h2
      by_cases hj : j ≤ n
      · exact hall j h1 hj
      · have : j = n + 1 := by omega
        rw [this]
        exact h

theorem countP_two (p : Msg → Bool) (evs : List Msg) :
    ∀ (i n : Nat) (a b : Msg), i < n → evs[i]? = some a → evs[n]? = some b →
      p a = true → p b = true → 2 ≤ (evs.take (n + 1)).countP p := by
  induction evs with
  | nil => intro i n a b _ h; simp at h
  | cons x xs ih =>
    intro i n a b hin ha hb pa pb
    cases n with
    | zero => omega
    | succ n =>
      rw [List.take_succ_cons, List.countP_cons]
      rw [List.getElem?_cons_succ] at hb
      cases i with
      | zero =>
        simp only [List.getElem?_cons_zero, Option.some.injEq] at ha
        subst ha
        have h1 : 1 ≤ (xs.take (n + 1)).countP p := by
          rw [Nat.succ_le_iff, List.countP_pos_iff]
          refine ⟨b, ?_, pb⟩
          exact List.mem_take_iff_getElem.2 ⟨n, by
            have := (List.getElem?_eq_some_iff.1 hb).1
            omega, (List.getElem?_eq_some_iff.1 hb).2⟩
        rw [if_pos pa]; omega
      | succ i =>
        rw [List.getElem?_cons_succ] at ha
        have := ih i n a b (by omega) ha hb pa pb
        omega

/-- C9. Starting from `newModel`, if the event at position `n` of a sequence
makes `Update` return `tea.Quit`, then that event is the key press "y"
handled in the quit-confirmation view, and an earlier event is a press of a
key of the Quit binding ("q", "esc" or "ctrl+c") handled in the main view,
after which the mode stays the quit-confirmation view up to position `n` (no
key press in between returns to the main view: any key press in between is
"y"). No event handled in the main view returns `tea.Quit`, and the sequence
up to position `n` holds at least two key presses. -/
theorem quit_needs_confirmation (evs : List Msg) (n : Nat) (e : Msg)
    (he : evs[n]? = some e) (hquit : (Update (stateAt evs n) e).2 = some Cmd.Quit) :
    e = Msg.KeyMsg "y" ∧ (stateAt evs n).quitting = true ∧
    (∃ (i : Nat) (k : String), i < n ∧ evs[i]? = some (Msg.KeyMsg k) ∧
      k ∈ keys.Quit.keys ∧ (stateAt evs i).quitting = false ∧
      (∀ j : Nat, i < j → j ≤ n → (stateAt evs j).quitting = true) ∧
      (∀ (j : Nat) (k2 : String), i < j → j < n → evs[j]? = some (Msg.KeyMsg k2) → k2 = "y")) ∧
    (∀ (m : model) (msg : Msg), m.quitting = false → (Update m msg).2 = none) ∧
    2 ≤ (evs.take (n + 1)).countP Msg.isKey := by
  obtain ⟨hq, hy⟩ := Update_cmd_quit _ _ hquit
  have hn : n < evs.length := (List.getElem?_eq_some_iff.1 he).1
  obtain ⟨i, k, hi, hik, hmem, hmain, hall⟩ := last_quit_press evs n (le_of_lt hn) hq
  refine ⟨hy, hq, ⟨i, k, hi, hik, hmem, hmain, hall, ?_⟩, Update_main_cmd, ?_⟩
  · intro j k2 h1 h2 hj
    have hs := hall (j + 1) (by omega) (by omega)
    rw [stateAt_succ evs j _ hj] at hs
    exact Update_confirm_stays _ k2 (hall j h1 (by omega)) hs
  · subst hy
    exact countP_two Msg.isKey evs i n _ _ hi hik he rfl rfl

theorem quit_needs_confirmation_witness :
    (Update (stateAt [Msg.KeyMsg "q", Msg.KeyMsg "y"] 1) (Msg.KeyMsg "y")).2 = some Cmd.Quit ∧
    (stateAt [Msg.KeyMsg "q", Msg.KeyMsg "y"] 1).quitting = true ∧
    2 ≤ ([Msg.KeyMsg "q", Msg.KeyMsg "y"].take (1 + 1)).countP Msg.isKey :=
  ⟨rfl,
   (quit_needs_confirmation [Msg.KeyMsg "q", Msg.KeyMsg "y"] 1 (Msg.KeyMsg "y") rfl rfl).2.1,
   (quit_needs_confirmation [Msg.KeyMsg "q", Msg.KeyMsg "y"] 1 (Msg.KeyMsg "y") rfl rfl).2.2.2.2⟩

end Occ
